import Mathlib

/-!
# gobyexample: channels, closures and command-line examples

A shallow embedding of the example programs under `examples/` and the
properties their specification states about them.

Goroutines are embedded as an interleaving semantics: a program state holds the
control point and the locals of every goroutine together with the channels, and
`step t s` is the next statement of goroutine `t` (`none` when `t` is blocked or
has finished).  An interleaving is a list of scheduling choices.
-/

/-! ## Go channels -/

namespace GoChan

/-- A channel value as created by `make(chan T, cap)`. -/
structure Chan (α : Type) where
  cap : Nat
  buf : List α
  closed : Bool
deriving DecidableEq, Repr

/-- The channel `make(chan T, cap)`; `make(chan T)` is `make α 0`. -/
def make (α : Type) (cap : Nat) : Chan α :=
  { cap := cap, buf := [], closed := false }

/-- Outcome of a send attempted by one goroutine on its own. -/
inductive SendRes (α : Type) where
  | sent (c : Chan α)
  | blocked
  | panicClosed
deriving DecidableEq, Repr

/-- The statement `c <- v`: panics on a closed channel, enqueues when the buffer
has room, blocks otherwise. -/
def send {α : Type} (c : Chan α) (v : α) : SendRes α :=
  if c.closed then .panicClosed
  else if c.buf.length < c.cap then .sent { c with buf := c.buf ++ [v] }
  else .blocked

/-- Outcome of a receive attempted by one goroutine on its own. -/
inductive RecvRes (α : Type) where
  | got (v : α) (ok : Bool) (c : Chan α)
  | blocked
deriving DecidableEq, Repr

/-- The expression `v, ok := <-c`: the oldest buffered value with `ok = true`;
on an empty closed channel the zero value with `ok = false`; blocks on an empty
open channel. -/
def recv {α : Type} (zero : α) (c : Chan α) : RecvRes α :=
  match c.buf with
  | v :: rest => .got v true { c with buf := rest }
  | [] => if c.closed then .got zero false c else .blocked

/-- Outcome of `close(c)`. -/
inductive CloseRes (α : Type) where
  | closed (c : Chan α)
  | panicClosed
deriving DecidableEq, Repr

/-- The statement `close(c)`: panics when `c` is already closed. -/
def close {α : Type} (c : Chan α) : CloseRes α :=
  if c.closed then .panicClosed else .closed { c with closed := true }

/-- A blocked sender and a blocked receiver on the same channel hand the value
over directly (the only way a send on an unbuffered channel completes). -/
def rendezvous {α : Type} (zero : α) (c : Chan α) (v : α) : Bool :=
  match send c v, recv zero c with
  | .blocked, .blocked => true
  | _, _ => false

end GoChan

/-- Run-time fatal errors of the channel operations. -/
inductive Fatal where
  | sendOnClosedChannel
  | closeOfClosedChannel
deriving DecidableEq, Repr

/-- The goroutines of the two channel examples. -/
inductive Tid where
  | main
  | worker
deriving DecidableEq, Repr

/-! ## Interleavings -/

namespace Sched

/-- A labelled step function: the next statement of goroutine `t` in state `s`
gives the new state and what the statement wrote to standard output; `none`
when `t` is blocked or has finished. -/
abbrev Step (σ ω : Type) := Tid → σ → Option (σ × List ω)

/-- The state reached from `s` under the interleaving `sched` (one scheduling
choice per step) and the standard output produced on the way; `none` when a
chosen goroutine was not enabled. -/
def run {σ ω : Type} (step : Step σ ω) (s : σ) : List Tid → Option (σ × List ω)
  | [] => some (s, [])
  | t :: sched =>
    match step t s with
    | none => none
    | some (s', e) => (run step s' sched).map (fun r => (r.1, e ++ r.2))

/-- No goroutine can take a step in `s`. -/
def stuck {σ ω : Type} (step : Step σ ω) (s : σ) : Bool :=
  (step .main s).isNone && (step .worker s).isNone

/-- Every step `s → s'` of a goroutine `t` writing `e`, from a state `s` of `l`,
satisfies `p t s s' e`. -/
def allNext {σ ω : Type} (step : Step σ ω) (p : Tid → σ → σ → List ω → Bool) (l : List σ) :
    Bool :=
  l.all (fun s => [Tid.main, Tid.worker].all (fun t =>
    match step t s with
    | none => true
    | some (s', e) => p t s s' e))

end Sched

/-! ## examples/channel-synchronization -/

namespace ChannelSynchronization

/-- Writes to standard output: `fmt.Print("working...")`, `fmt.Println("done")`. -/
inductive Out where
  | working
  | done
deriving DecidableEq, Repr

/-- The text written. -/
def Out.render : Out → String
  | .working => "working..."
  | .done => "done\n"

/-- Control points of `worker` (lines 17-24). -/
inductive WPc where
  | notStarted
  | printWorking
  | sleep
  | printDone
  | sendDone
  | returned
deriving DecidableEq, Repr

/-- Control points of `main` (lines 31-39). -/
inductive MPc where
  | spawn
  | recvDone
  | ret
  | exited
deriving DecidableEq, Repr

/-- Program state: both control points, the channel `done`, the fatal error
raised, if any, and the number of sends and receives completed on `done`. -/
structure State where
  mpc : MPc
  wpc : WPc
  done : GoChan.Chan Bool
  fatal : Option Fatal
  doneSends : Nat
  doneRecvs : Nat
deriving DecidableEq, Repr

/-- The state after `done := make(chan bool, 1)` (line 30). -/
def init : State :=
  { mpc := .spawn, wpc := .notStarted, done := GoChan.make Bool 1, fatal := none,
    doneSends := 0, doneRecvs := 0 }

/-- The hand-over of `true` on `done` from the worker blocked at line 23 to
`main` blocked at line 38. -/
def syncDone (s : State) : Option (State × List Out) :=
  if s.wpc = .sendDone ∧ s.mpc = .recvDone ∧ GoChan.rendezvous false s.done true then
    some ({ s with wpc := .returned, mpc := .ret,
                   doneSends := s.doneSends + 1, doneRecvs := s.doneRecvs + 1 }, [])
  else none

/-- One statement of `worker(done)`. -/
def worker (s : State) : Option (State × List Out) :=
  match s.wpc with
  | .notStarted => none
  | .printWorking => some ({ s with wpc := .sleep }, [.working])
  | .sleep => some ({ s with wpc := .printDone }, [])
  | .printDone => some ({ s with wpc := .sendDone }, [.done])
  | .sendDone =>
    match GoChan.send s.done true with
    | .sent c => some ({ s with wpc := .returned, done := c, doneSends := s.doneSends + 1 }, [])
    | .panicClosed => some ({ s with fatal := some .sendOnClosedChannel }, [])
    | .blocked => syncDone s
  | .returned => none

/-- One statement of `main`. -/
def main (s : State) : Option (State × List Out) :=
  match s.mpc with
  | .spawn => some ({ s with mpc := .recvDone, wpc := .printWorking }, [])
  | .recvDone =>
    match GoChan.recv false s.done with
    | .got _ _ c => some ({ s with mpc := .ret, done := c, doneRecvs := s.doneRecvs + 1 }, [])
    | .blocked => syncDone s
  | .ret => some ({ s with mpc := .exited }, [])
  | .exited => none

/-- One step of goroutine `t`; nothing runs once `main` has returned or a fatal
error was raised. -/
def step : Sched.Step State Out := fun t s =>
  if s.mpc = .exited ∨ s.fatal.isSome then none
  else match t with
    | .main => main s
    | .worker => worker s

/-- The state reached from `init` under the interleaving `sched`, with the
standard output. -/
def run (sched : List Tid) : Option (State × List Out) := Sched.run step init sched

/-- The state with the given control points and buffer of `done`, after
`sends` sends and `recvs` receives on `done`. -/
def st (mpc : MPc) (wpc : WPc) (buf : List Bool) (sends recvs : Nat) : State :=
  { mpc := mpc, wpc := wpc, done := { cap := 1, buf := buf, closed := false },
    fatal := none, doneSends := sends, doneRecvs := recvs }

/-- The states of the program: the list contains `init` and every state a step
leads to from one of its members, hence every state an interleaving reaches. -/
def reachSet : List State :=
  [st .spawn .notStarted [] 0 0,
   st .recvDone .printWorking [] 0 0,
   st .recvDone .sleep [] 0 0,
   st .recvDone .printDone [] 0 0,
   st .recvDone .sendDone [] 0 0,
   st .recvDone .returned [true] 1 0,
   st .ret .returned [] 1 1,
   st .exited .returned [] 1 1]

/-- Statements left to execute. -/
def rank (s : State) : Nat :=
  (match s.mpc with
    | .spawn => 3
    | .recvDone => 2
    | .ret => 1
    | .exited => 0) +
  (match s.wpc with
    | .notStarted => 4
    | .printWorking => 4
    | .sleep => 3
    | .printDone => 2
    | .sendDone => 1
    | .returned => 0)

/-- What the worker has written to standard output when it is at a control
point. -/
def workerOut : WPc → List Out
  | .notStarted => []
  | .printWorking => []
  | .sleep => [.working]
  | .printDone => [.working]
  | .sendDone => [.working, .done]
  | .returned => [.working, .done]

/-- The interleaving in which the worker runs as soon as it is started. -/
def workerFirst : List Tid :=
  [.main, .worker, .worker, .worker, .worker, .main, .main]

/-- The state in which `main` has returned. -/
def final : State :=
  { mpc := .exited, wpc := .returned, done := { cap := 1, buf := [], closed := false },
    fatal := none, doneSends := 1, doneRecvs := 1 }

end ChannelSynchronization

/-! ## examples/closing-channels -/

namespace ClosingChannels

/-- Lines written to standard output by `fmt.Println`. -/
inductive Line where
  | receivedJob (j : Int)
  | receivedAll
  | sentJob (j : Int)
  | sentAll
  | receivedMore (ok : Bool)
deriving DecidableEq, Repr

/-- The text of a line. -/
def Line.render : Line → String
  | .receivedJob j => "received job " ++ toString j
  | .receivedAll => "received all jobs"
  | .sentJob j => "sent job " ++ toString j
  | .sentAll => "sent all jobs"
  | .receivedMore ok => "received more jobs: " ++ toString ok

/-- Control points of the worker goroutine (lines 24-35). -/
inductive WPc where
  | notStarted
  | recvJobs
  | test
  | printJob
  | printAll
  | sendDone
  | ret
  | returned
deriving DecidableEq, Repr

/-- Control points of `main` after the two `make` (lines 24-70). -/
inductive MPc where
  | spawn
  | forInit
  | forTest
  | sendJobs
  | printSent
  | forPost
  | closeJobs
  | printAll
  | recvDone
  | recvJobs
  | printMore
  | ret
  | exited
deriving DecidableEq, Repr

/-- An operation completed on the channel `jobs`. -/
inductive JobsOp where
  | send (j : Int)
  | close
  | recv (v : Int) (ok : Bool)
deriving DecidableEq, Repr

/-- Program state.  `j`, `ok` are the locals of `main`, `wj`, `more` those of
the worker.  `mainOps` and `workerOps` record, in order, the operations each
goroutine has completed on `jobs`; `doneSends` and `doneRecvs` count the
completed sends and receives on `done`. -/
structure State where
  mpc : MPc
  wpc : WPc
  j : Int
  wj : Int
  ok : Bool
  more : Bool
  jobs : GoChan.Chan Int
  done : GoChan.Chan Bool
  fatal : Option Fatal
  mainOps : List JobsOp
  workerOps : List JobsOp
  doneSends : Nat
  doneRecvs : Nat
deriving DecidableEq, Repr

/-- The state after `jobs := make(chan int, 5)` and `done := make(chan bool)`
(lines 14-15). -/
def init : State :=
  { mpc := .spawn, wpc := .notStarted, j := 0, ok := false, wj := 0, more := false,
    jobs := GoChan.make Int 5, done := GoChan.make Bool 0, fatal := none,
    mainOps := [], workerOps := [], doneSends := 0, doneRecvs := 0 }

/-- The hand-over of `true` on `done` from the worker blocked at line 31 to
`main` blocked at line 59. -/
def syncDone (s : State) : Option (State × List Line) :=
  if s.wpc = .sendDone ∧ s.mpc = .recvDone ∧ GoChan.rendezvous false s.done true then
    some ({ s with wpc := .ret, mpc := .recvJobs,
                   doneSends := s.doneSends + 1, doneRecvs := s.doneRecvs + 1 }, [])
  else none

/-- One statement of the worker goroutine (lines 24-35). -/
def worker (s : State) : Option (State × List Line) :=
  match s.wpc with
  | .notStarted => none
  | .recvJobs =>
    match GoChan.recv 0 s.jobs with
    | .got v ok c =>
      some ({ s with wpc := .test, wj := v, more := ok, jobs := c,
                     workerOps := s.workerOps ++ [.recv v ok] }, [])
    | .blocked => none
  | .test => some ({ s with wpc := if s.more then .printJob else .printAll }, [])
  | .printJob => some ({ s with wpc := .recvJobs }, [.receivedJob s.wj])
  | .printAll => some ({ s with wpc := .sendDone }, [.receivedAll])
  | .sendDone =>
    match GoChan.send s.done true with
    | .sent c => some ({ s with wpc := .ret, done := c, doneSends := s.doneSends + 1 }, [])
    | .panicClosed => some ({ s with fatal := some .sendOnClosedChannel }, [])
    | .blocked => syncDone s
  | .ret => some ({ s with wpc := .returned }, [])
  | .returned => none

/-- One statement of `main` (lines 24-70). -/
def main (s : State) : Option (State × List Line) :=
  match s.mpc with
  | .spawn => some ({ s with mpc := .forInit, wpc := .recvJobs }, [])
  | .forInit => some ({ s with mpc := .forTest, j := 1 }, [])
  | .forTest => some ({ s with mpc := if s.j ≤ 3 then .sendJobs else .closeJobs }, [])
  | .sendJobs =>
    match GoChan.send s.jobs s.j with
    | .sent c =>
      some ({ s with mpc := .printSent, jobs := c, mainOps := s.mainOps ++ [.send s.j] }, [])
    | .panicClosed => some ({ s with fatal := some .sendOnClosedChannel }, [])
    | .blocked => none
  | .printSent => some ({ s with mpc := .forPost }, [.sentJob s.j])
  | .forPost => some ({ s with mpc := .forTest, j := s.j + 1 }, [])
  | .closeJobs =>
    match GoChan.close s.jobs with
    | .closed c =>
      some ({ s with mpc := .printAll, jobs := c, mainOps := s.mainOps ++ [.close] }, [])
    | .panicClosed => some ({ s with fatal := some .closeOfClosedChannel }, [])
  | .printAll => some ({ s with mpc := .recvDone }, [.sentAll])
  | .recvDone =>
    match GoChan.recv false s.done with
    | .got _ _ c => some ({ s with mpc := .recvJobs, done := c, doneRecvs := s.doneRecvs + 1 }, [])
    | .blocked => syncDone s
  | .recvJobs =>
    match GoChan.recv 0 s.jobs with
    | .got v ok c =>
      some ({ s with mpc := .printMore, ok := ok, jobs := c,
                     mainOps := s.mainOps ++ [.recv v ok] }, [])
    | .blocked => none
  | .printMore => some ({ s with mpc := .ret }, [.receivedMore s.ok])
  | .ret => some ({ s with mpc := .exited }, [])
  | .exited => none

/-- One step of goroutine `t`; nothing runs once `main` has returned or a fatal
error was raised. -/
def step : Sched.Step State Line := fun t s =>
  if s.mpc = .exited ∨ s.fatal.isSome then none
  else match t with
    | .main => main s
    | .worker => worker s

/-- The state reached from `init` under the interleaving `sched`, with the
standard output. -/
def run (sched : List Tid) : Option (State × List Line) := Sched.run step init sched

/-- All operations `main` performs on `jobs`, in program order. -/
def mainOpsAll : List JobsOp := [.send 1, .send 2, .send 3, .close, .recv 0 false]

/-- The receives of the worker on `jobs`, in order. -/
def workerOpsAll : List JobsOp := [.recv 1 true, .recv 2 true, .recv 3 true, .recv 0 false]

/-- The state with the given control points, `j`, worker's `j`, `ok`, `more`,
buffer of `jobs` and closed flag of `jobs`, in which `main` and the worker have
completed the first `nMain` and `nWorker` of their operations on `jobs` and
`nDone` hand-overs on `done` have taken place. -/
def st (mpc : MPc) (wpc : WPc) (j wj : Int) (ok more : Bool) (buf : List Int) (closed : Bool)
    (nMain nWorker nDone : Nat) : State :=
  { mpc := mpc, wpc := wpc, j := j, wj := wj, ok := ok, more := more,
    jobs := { cap := 5, buf := buf, closed := closed },
    done := GoChan.make Bool 0, fatal := none,
    mainOps := mainOpsAll.take nMain, workerOps := workerOpsAll.take nWorker,
    doneSends := nDone, doneRecvs := nDone }

/-- The states of the program: the list contains `init` and every state a step
leads to from one of its members, hence every state an interleaving reaches. -/
def reachSet : List State :=
  [st .spawn .notStarted 0 0 false false [] false 0 0 0,
   st .forInit .recvJobs 0 0 false false [] false 0 0 0,
   st .forTest .recvJobs 1 0 false false [] false 0 0 0,
   st .sendJobs .recvJobs 1 0 false false [] false 0 0 0,
   st .printSent .recvJobs 1 0 false false [1] false 1 0 0,
   st .forPost .recvJobs 1 0 false false [1] false 1 0 0,
   st .printSent .test 1 1 false true [] false 1 1 0,
   st .forTest .recvJobs 2 0 false false [1] false 1 0 0,
   st .forPost .test 1 1 false true [] false 1 1 0,
   st .printSent .printJob 1 1 false true [] false 1 1 0,
   st .sendJobs .recvJobs 2 0 false false [1] false 1 0 0,
   st .forTest .test 2 1 false true [] false 1 1 0,
   st .forPost .printJob 1 1 false true [] false 1 1 0,
   st .printSent .recvJobs 1 1 false true [] false 1 1 0,
   st .printSent .recvJobs 2 0 false false [1, 2] false 2 0 0,
   st .sendJobs .test 2 1 false true [] false 1 1 0,
   st .forTest .printJob 2 1 false true [] false 1 1 0,
   st .forPost .recvJobs 1 1 false true [] false 1 1 0,
   st .forPost .recvJobs 2 0 false false [1, 2] false 2 0 0,
   st .printSent .test 2 1 false true [2] false 2 1 0,
   st .sendJobs .printJob 2 1 false true [] false 1 1 0,
   st .forTest .recvJobs 2 1 false true [] false 1 1 0,
   st .forTest .recvJobs 3 0 false false [1, 2] false 2 0 0,
   st .forPost .test 2 1 false true [2] false 2 1 0,
   st .printSent .printJob 2 1 false true [2] false 2 1 0,
   st .sendJobs .recvJobs 2 1 false true [] false 1 1 0,
   st .sendJobs .recvJobs 3 0 false false [1, 2] false 2 0 0,
   st .forTest .test 3 1 false true [2] false 2 1 0,
   st .forPost .printJob 2 1 false true [2] false 2 1 0,
   st .printSent .recvJobs 2 1 false true [2] false 2 1 0,
   st .printSent .recvJobs 3 0 false false [1, 2, 3] false 3 0 0,
   st .sendJobs .test 3 1 false true [2] false 2 1 0,
   st .forTest .printJob 3 1 false true [2] false 2 1 0,
   st .forPost .recvJobs 2 1 false true [2] false 2 1 0,
   st .printSent .test 2 2 false true [] false 2 2 0,
   st .forPost .recvJobs 3 0 false false [1, 2, 3] false 3 0 0,
   st .printSent .test 3 1 false true [2, 3] false 3 1 0,
   st .sendJobs .printJob 3 1 false true [2] false 2 1 0,
   st .forTest .recvJobs 3 1 false true [2] false 2 1 0,
   st .forPost .test 2 2 false true [] false 2 2 0,
   st .printSent .printJob 2 2 false true [] false 2 2 0,
   st .forTest .recvJobs 4 0 false false [1, 2, 3] false 3 0 0,
   st .forPost .test 3 1 false true [2, 3] false 3 1 0,
   st .printSent .printJob 3 1 false true [2, 3] false 3 1 0,
   st .sendJobs .recvJobs 3 1 false true [2] false 2 1 0,
   st .forTest .test 3 2 false true [] false 2 2 0,
   st .forPost .printJob 2 2 false true [] false 2 2 0,
   st .printSent .recvJobs 2 2 false true [] false 2 2 0,
   st .closeJobs .recvJobs 4 0 false false [1, 2, 3] false 3 0 0,
   st .forTest .test 4 1 false true [2, 3] false 3 1 0,
   st .forPost .printJob 3 1 false true [2, 3] false 3 1 0,
   st .printSent .recvJobs 3 1 false true [2, 3] false 3 1 0,
   st .sendJobs .test 3 2 false true [] false 2 2 0,
   st .forTest .printJob 3 2 false true [] false 2 2 0,
   st .forPost .recvJobs 2 2 false true [] false 2 2 0,
   st .printAll .recvJobs 4 0 false false [1, 2, 3] true 4 0 0,
   st .closeJobs .test 4 1 false true [2, 3] false 3 1 0,
   st .forTest .printJob 4 1 false true [2, 3] false 3 1 0,
   st .forPost .recvJobs 3 1 false true [2, 3] false 3 1 0,
   st .printSent .test 3 2 false true [3] false 3 2 0,
   st .sendJobs .printJob 3 2 false true [] false 2 2 0,
   st .forTest .recvJobs 3 2 false true [] false 2 2 0,
   st .recvDone .recvJobs 4 0 false false [1, 2, 3] true 4 0 0,
   st .printAll .test 4 1 false true [2, 3] true 4 1 0,
   st .closeJobs .printJob 4 1 false true [2, 3] false 3 1 0,
   st .forTest .recvJobs 4 1 false true [2, 3] false 3 1 0,
   st .forPost .test 3 2 false true [3] false 3 2 0,
   st .printSent .printJob 3 2 false true [3] false 3 2 0,
   st .sendJobs .recvJobs 3 2 false true [] false 2 2 0,
   st .recvDone .test 4 1 false true [2, 3] true 4 1 0,
   st .printAll .printJob 4 1 false true [2, 3] true 4 1 0,
   st .closeJobs .recvJobs 4 1 false true [2, 3] false 3 1 0,
   st .forTest .test 4 2 false true [3] false 3 2 0,
   st .forPost .printJob 3 2 false true [3] false 3 2 0,
   st .printSent .recvJobs 3 2 false true [3] false 3 2 0,
   st .recvDone .printJob 4 1 false true [2, 3] true 4 1 0,
   st .printAll .recvJobs 4 1 false true [2, 3] true 4 1 0,
   st .closeJobs .test 4 2 false true [3] false 3 2 0,
   st .forTest .printJob 4 2 false true [3] false 3 2 0,
   st .forPost .recvJobs 3 2 false true [3] false 3 2 0,
   st .printSent .test 3 3 false true [] false 3 3 0,
   st .recvDone .recvJobs 4 1 false true [2, 3] true 4 1 0,
   st .printAll .test 4 2 false true [3] true 4 2 0,
   st .closeJobs .printJob 4 2 false true [3] false 3 2 0,
   st .forTest .recvJobs 4 2 false true [3] false 3 2 0,
   st .forPost .test 3 3 false true [] false 3 3 0,
   st .printSent .printJob 3 3 false true [] false 3 3 0,
   st .recvDone .test 4 2 false true [3] true 4 2 0,
   st .printAll .printJob 4 2 false true [3] true 4 2 0,
   st .closeJobs .recvJobs 4 2 false true [3] false 3 2 0,
   st .forTest .test 4 3 false true [] false 3 3 0,
   st .forPost .printJob 3 3 false true [] false 3 3 0,
   st .printSent .recvJobs 3 3 false true [] false 3 3 0,
   st .recvDone .printJob 4 2 false true [3] true 4 2 0,
   st .printAll .recvJobs 4 2 false true [3] true 4 2 0,
   st .closeJobs .test 4 3 false true [] false 3 3 0,
   st .forTest .printJob 4 3 false true [] false 3 3 0,
   st .forPost .recvJobs 3 3 false true [] false 3 3 0,
   st .recvDone .recvJobs 4 2 false true [3] true 4 2 0,
   st .printAll .test 4 3 false true [] true 4 3 0,
   st .closeJobs .printJob 4 3 false true [] false 3 3 0,
   st .forTest .recvJobs 4 3 false true [] false 3 3 0,
   st .recvDone .test 4 3 false true [] true 4 3 0,
   st .printAll .printJob 4 3 false true [] true 4 3 0,
   st .closeJobs .recvJobs 4 3 false true [] false 3 3 0,
   st .recvDone .printJob 4 3 false true [] true 4 3 0,
   st .printAll .recvJobs 4 3 false true [] true 4 3 0,
   st .recvDone .recvJobs 4 3 false true [] true 4 3 0,
   st .printAll .test 4 0 false false [] true 4 4 0,
   st .recvDone .test 4 0 false false [] true 4 4 0,
   st .printAll .printAll 4 0 false false [] true 4 4 0,
   st .recvDone .printAll 4 0 false false [] true 4 4 0,
   st .printAll .sendDone 4 0 false false [] true 4 4 0,
   st .recvDone .sendDone 4 0 false false [] true 4 4 0,
   st .recvJobs .ret 4 0 false false [] true 4 4 1,
   st .printMore .ret 4 0 false false [] true 5 4 1,
   st .recvJobs .returned 4 0 false false [] true 4 4 1,
   st .ret .ret 4 0 false false [] true 5 4 1,
   st .printMore .returned 4 0 false false [] true 5 4 1,
   st .exited .ret 4 0 false false [] true 5 4 1,
   st .ret .returned 4 0 false false [] true 5 4 1,
   st .exited .returned 4 0 false false [] true 5 4 1]

/-- Statements left to execute. -/
def rank (s : State) : Nat :=
  (match s.mpc with
    | .spawn => 21
    | .forInit => 20
    | .forTest => 7 + 4 * (4 - s.j).toNat
    | .sendJobs => 10 + 4 * (3 - s.j).toNat
    | .printSent => 9 + 4 * (3 - s.j).toNat
    | .forPost => 8 + 4 * (3 - s.j).toNat
    | .closeJobs => 6
    | .printAll => 5
    | .recvDone => 4
    | .recvJobs => 3
    | .printMore => 2
    | .ret => 1
    | .exited => 0) +
  (match s.wpc with
    | .notStarted => 14
    | .recvJobs => 5 + 3 * (3 - s.workerOps.length)
    | .test => if s.more then 7 + 3 * (3 - s.workerOps.length) else 4
    | .printJob => 6 + 3 * (3 - s.workerOps.length)
    | .printAll => 3
    | .sendDone => 2
    | .ret => 1
    | .returned => 0)

/-- The phases of the consumer loop: `running` while it receives and processes
items, `draining` from the receive that reported `more = false` until the send
on `done`, `finished` afterwards. -/
inductive Phase where
  | running
  | draining
  | finished
deriving DecidableEq, Repr

/-- The phase of the worker. -/
def phase (s : State) : Phase :=
  match s.wpc with
  | .notStarted => .running
  | .recvJobs => .running
  | .test => if s.more then .running else .draining
  | .printJob => .running
  | .printAll => .draining
  | .sendDone => .draining
  | .ret => .finished
  | .returned => .finished

/-- Lines written by `main` (the others are written by the worker). -/
def Line.byMain : Line → Bool
  | .receivedJob _ => false
  | .receivedAll => false
  | .sentJob _ => true
  | .sentAll => true
  | .receivedMore _ => true

/-- The lines "sent job 1" ... "sent job n". -/
def sentLines (n : Nat) : List Line :=
  (List.range n).map (fun i => .sentJob ((i : Int) + 1))

/-- The lines "received job 1" ... "received job n". -/
def receivedLines (n : Nat) : List Line :=
  (List.range n).map (fun i => .receivedJob ((i : Int) + 1))

/-- What `main` has written to standard output in state `s`. -/
def mainOut (s : State) : List Line :=
  match s.mpc with
  | .spawn => []
  | .forInit => []
  | .forTest => sentLines (s.j - 1).toNat
  | .sendJobs => sentLines (s.j - 1).toNat
  | .printSent => sentLines (s.j - 1).toNat
  | .forPost => sentLines s.j.toNat
  | .closeJobs => sentLines 3
  | .printAll => sentLines 3
  | .recvDone => sentLines 3 ++ [.sentAll]
  | .recvJobs => sentLines 3 ++ [.sentAll]
  | .printMore => sentLines 3 ++ [.sentAll]
  | .ret => sentLines 3 ++ [.sentAll, .receivedMore s.ok]
  | .exited => sentLines 3 ++ [.sentAll, .receivedMore s.ok]

/-- What the worker has written to standard output in state `s`. -/
def workerOut (s : State) : List Line :=
  match s.wpc with
  | .notStarted => []
  | .recvJobs => receivedLines s.workerOps.length
  | .test => receivedLines (s.workerOps.length - 1)
  | .printJob => receivedLines (s.workerOps.length - 1)
  | .printAll => receivedLines 3
  | .sendDone => receivedLines 3 ++ [.receivedAll]
  | .ret => receivedLines 3 ++ [.receivedAll]
  | .returned => receivedLines 3 ++ [.receivedAll]

/-- The values sent, in order, among the operations `ops`. -/
def sentVals (ops : List JobsOp) : List Int :=
  ops.filterMap (fun op => match op with
    | .send j => some j
    | _ => none)

/-- The values received with `ok = true`, in order, among the operations `ops`. -/
def recvVals (ops : List JobsOp) : List Int :=
  ops.filterMap (fun op => match op with
    | .recv v true => some v
    | _ => none)

/-- The interleaving in which `main` runs until it blocks on `<-done`, then the
worker until it blocks on `done <- true`, then the hand-over, then `main`. -/
def mainFirst : List Tid :=
  List.replicate 17 .main ++ List.replicate 12 .worker ++ [.worker, .main, .main, .main]

/-- The state in which `main` has returned under `mainFirst`. -/
def final : State :=
  { mpc := .exited, wpc := .ret, j := 4, wj := 0, ok := false, more := false,
    jobs := { cap := 5, buf := [], closed := true },
    done := GoChan.make Bool 0, fatal := none,
    mainOps := mainOpsAll, workerOps := workerOpsAll, doneSends := 1, doneRecvs := 1 }

/-- Standard output under `mainFirst`. -/
def finalOut : List Line :=
  [.sentJob 1, .sentJob 2, .sentJob 3, .sentAll, .receivedJob 1, .receivedJob 2,
   .receivedJob 3, .receivedAll, .receivedMore false]

/-- The interleaving `mainFirst` up to and including the hand-over on `done`. -/
def untilHandOver : List Tid :=
  List.replicate 17 .main ++ List.replicate 12 .worker ++ [.worker]

/-- The state right after the hand-over under `untilHandOver`: `main` is at
line 68, the worker at its `return` (line 32). -/
def afterHandOver : State :=
  { mpc := .recvJobs, wpc := .ret, j := 4, wj := 0, ok := false, more := false,
    jobs := { cap := 5, buf := [], closed := true },
    done := GoChan.make Bool 0, fatal := none,
    mainOps := [.send 1, .send 2, .send 3, .close], workerOps := workerOpsAll,
    doneSends := 1, doneRecvs := 1 }

/-- Standard output under `untilHandOver`. -/
def afterHandOverOut : List Line :=
  [.sentJob 1, .sentJob 2, .sentJob 3, .sentAll, .receivedJob 1, .receivedJob 2,
   .receivedJob 3, .receivedAll]

end ClosingChannels

/-! ## examples/closures -/

namespace Closures

/-- Largest value of Go's 64-bit `int`. -/
def maxInt : Int := 2 ^ 63 - 1

/-- Wrap-around of 64-bit signed arithmetic. -/
def wrapInt (x : Int) : Int := (x + 2 ^ 63) % 2 ^ 64 - 2 ^ 63

/-- The captured variables `i`, one cell per call of `intSeq`. -/
abbrev Heap := List Int

/-- A function value returned by `intSeq`: the address of the `i` it closes over. -/
structure Closure where
  addr : Nat
deriving DecidableEq, Repr

/-- Runs `intSeq()`: `i := 0` in a fresh cell, and the closure over that cell
is returned. -/
def intSeq (h : Heap) : Closure × Heap :=
  ({ addr := h.length }, h ++ [0])

/-- Calls the closure: `i++; return i`. -/
def Closure.call (f : Closure) (h : Heap) : Option (Int × Heap) :=
  match h[f.addr]? with
  | none => none
  | some i => some (wrapInt (i + 1), h.set f.addr (wrapInt (i + 1)))

/-- What a program does with closures: `make` calls `intSeq()` and keeps the
function it returns; `call k` calls the function that the `k`-th call of
`intSeq` returned (counting from 0). -/
inductive Op where
  | make
  | call (k : Nat)
deriving DecidableEq, Repr

/-- State of a program: the heap, and the function values the calls of `intSeq`
have returned so far, in the order of the calls. -/
structure Prog where
  heap : Heap
  funcs : List Closure
deriving DecidableEq, Repr

/-- The program state before anything has run. -/
def start : Prog := { heap := [], funcs := [] }

/-- The state after the operations `ops`; `none` if `ops` calls a function
before the call of `intSeq` that returns it. -/
def exec (p : Prog) : List Op → Option Prog
  | [] => some p
  | .make :: ops =>
    exec { heap := (intSeq p.heap).2, funcs := p.funcs ++ [(intSeq p.heap).1] } ops
  | .call k :: ops =>
    match p.funcs[k]? with
    | none => none
    | some f =>
      match f.call p.heap with
      | none => none
      | some (_, h) => exec { p with heap := h } ops

/-- Standard output of `main` (lines 25-43), one entry per `fmt.Println`. -/
def main : Option (List String) :=
  let (nextInt, h0) := intSeq []
  match nextInt.call h0 with
  | none => none
  | some (a, h1) =>
  match nextInt.call h1 with
  | none => none
  | some (b, h2) =>
  match nextInt.call h2 with
  | none => none
  | some (c, h3) =>
  let (newInts, h4) := intSeq h3
  match newInts.call h4 with
  | none => none
  | some (d, _) => some [toString a, toString b, toString c, toString d]

end Closures

/-! ## examples/command-line-arguments -/

/-- Run-time panics of indexing and slicing. -/
inductive Panic where
  | indexOutOfRange (i len : Nat)
  | sliceBoundsOutOfRange (lo len : Nat)
deriving DecidableEq, Repr

/-- The expression `a[i]` on a slice. -/
def goIndex (a : List String) (i : Nat) : Except Panic String :=
  match a[i]? with
  | some x => .ok x
  | none => .error (.indexOutOfRange i a.length)

/-- The expression `a[lo:]` on a slice. -/
def goSliceFrom (a : List String) (lo : Nat) : Except Panic (List String) :=
  if lo ≤ a.length then .ok (a.drop lo) else .error (.sliceBoundsOutOfRange lo a.length)

/-- How `fmt.Println` shows a `[]string`. -/
def showSlice (a : List String) : String :=
  "[" ++ " ".intercalate a ++ "]"

namespace CommandLineArguments

/-- Result of a run: the lines written to standard output and the panic that
ended the run, if any. -/
structure Result where
  out : List String
  panic : Option Panic
deriving DecidableEq, Repr

/-- The program `main` (lines 13-40) on the argument vector `osArgs`. -/
def main (osArgs : List String) : Result :=
  let argsWithProg := osArgs
  match goSliceFrom osArgs 1 with
  | .error p => { out := [], panic := some p }
  | .ok argsWithoutProg =>
  match goIndex osArgs 3 with
  | .error p => { out := [], panic := some p }
  | .ok arg =>
  let guarded : Result :=
    if osArgs.length > 3 then
      match goIndex osArgs 3 with
      | .error p => { out := [], panic := some p }
      | .ok x => { out := [x], panic := none }
    else { out := ["not enough args!"], panic := none }
  match guarded.panic with
  | some p => { out := guarded.out, panic := some p }
  | none =>
    { out := guarded.out ++ [showSlice argsWithProg, showSlice argsWithoutProg, arg],
      panic := none }

end CommandLineArguments

/-! ## examples/command-line-subcommands -/

namespace CommandLineSubcommands

/-- The two flag sets of `main`: `fooCmd` (line 24) and `barCmd` (line 30). -/
inductive FlagSet where
  | fooCmd
  | barCmd
deriving DecidableEq, Repr

/-- The name a flag set was created with by `flag.NewFlagSet`. -/
def FlagSet.name : FlagSet → String
  | .fooCmd => "foo"
  | .barCmd => "bar"

/-- How a `Parse` under `flag.ExitOnError` ends the process when it fails:
`os.Exit(0)` after `-h`/`-help`, `os.Exit(2)` after any other error. -/
inductive ParseExit where
  | help
  | badFlag
deriving DecidableEq, Repr

/-- The exit status of a failing `Parse`. -/
def ParseExit.status : ParseExit → Nat
  | .help => 0
  | .badFlag => 2

/-- The `flag` package, which the program only calls: what `fooCmd.Parse` and
`barCmd.Parse` do with an argument list, either the flag values and the
trailing positional arguments or the end of the process. -/
structure FlagPkg where
  parseFoo : List String → Except ParseExit (Bool × String × List String)
  parseBar : List String → Except ParseExit (Int × List String)

/-- Result of a run: standard output, the `Parse` calls made (flag set and
argument list), the exit status (`none`: `main` returned normally, status 0), and
the panic raised, if any. -/
structure Result where
  out : List String
  parsed : List (FlagSet × List String)
  exit : Option Nat
  panic : Option Panic
deriving DecidableEq, Repr

/-- The message of lines 37 and 60. -/
def expected : String := "expected 'foo' or 'bar' subcommands"

/-- The program `main` (lines 16-63) on the argument vector `osArgs`. -/
def main (pkg : FlagPkg) (osArgs : List String) : Result :=
  if osArgs.length < 2 then
    { out := [expected], parsed := [], exit := some 1, panic := none }
  else
    match goIndex osArgs 1 with
    | .error p => { out := [], parsed := [], exit := none, panic := some p }
    | .ok sub =>
      if sub = "foo" then
        match goSliceFrom osArgs 2 with
        | .error p => { out := [], parsed := [], exit := none, panic := some p }
        | .ok rest =>
          match pkg.parseFoo rest with
          | .error e =>
            { out := [], parsed := [(.fooCmd, rest)], exit := some e.status, panic := none }
          | .ok (fooEnable, fooName, tail) =>
            { out := ["subcommand 'foo'", "  enable: " ++ toString fooEnable,
                      "  name: " ++ fooName, "  tail: " ++ showSlice tail],
              parsed := [(.fooCmd, rest)], exit := none, panic := none }
      else if sub = "bar" then
        match goSliceFrom osArgs 2 with
        | .error p => { out := [], parsed := [], exit := none, panic := some p }
        | .ok rest =>
          match pkg.parseBar rest with
          | .error e =>
            { out := [], parsed := [(.barCmd, rest)], exit := some e.status, panic := none }
          | .ok (barLevel, tail) =>
            { out := ["subcommand 'bar'", "  level: " ++ toString barLevel,
                      "  tail: " ++ showSlice tail],
              parsed := [(.barCmd, rest)], exit := none, panic := none }
      else
        { out := [expected], parsed := [], exit := some 1, panic := none }

end CommandLineSubcommands

/-! ## Interleavings: reachable states, bounds, output -/

namespace Sched

theorem allNext_apply {σ ω : Type} (step : Step σ ω) (p : Tid → σ → σ → List ω → Bool)
    (l : List σ) (h : allNext step p l = true) {s : σ} (hs : s ∈ l) {t : Tid} {s' : σ}
    {e : List ω} (hst : step t s = some (s', e)) : p t s s' e = true := by
  unfold allNext at h
  rw [List.all_eq_true] at h
  have h1 := h s hs
  rw [List.all_eq_true] at h1
  have h2 := h1 t (by cases t <;> simp)
  simpa [hst] using h2

theorem run_cons_eq {σ ω : Type} (step : Step σ ω) (s : σ) (t : Tid) (sched : List Tid)
    (s' : σ) (out : List ω) (h : run step s (t :: sched) = some (s', out)) :
    ∃ s1 e out1, step t s = some (s1, e) ∧ run step s1 sched = some (s', out1) ∧
      out = e ++ out1 := by
  simp only [run] at h
  cases hst : step t s with
  | none => simp [hst] at h
  | some r =>
    obtain ⟨s1, e⟩ := r
    simp only [hst] at h
    cases hrun : run step s1 sched with
    | none => simp [hrun] at h
    | some r1 =>
      obtain ⟨s2, out1⟩ := r1
      simp only [hrun, Option.map_some', Option.some.injEq, Prod.mk.injEq] at h
      exact ⟨s1, e, out1, rfl, by rw [hrun, h.1], h.2.symm⟩

/-- A set of states closed under `step` contains every state an interleaving
reaches from one of its members. -/
theorem run_mem {σ ω : Type} [DecidableEq σ] (step : Step σ ω) (l : List σ)
    (hcl : allNext step (fun _ _ s' _ => l.contains s') l = true) :
    ∀ (sched : List Tid) (s : σ), s ∈ l → ∀ (s' : σ) (out : List ω),
      run step s sched = some (s', out) → s' ∈ l := by
  intro sched
  induction sched with
  | nil =>
    intro s hs s' out h
    simp only [run, Option.some.injEq, Prod.mk.injEq] at h
    rw [← h.1]; exact hs
  | cons t sched ih =>
    intro s hs s' out h
    obtain ⟨s1, e, out1, hst, hrun, _⟩ := run_cons_eq step s t sched s' out h
    have hmem := allNext_apply step _ l hcl hs hst
    exact ih s1 (by simpa using hmem) s' out1 hrun

/-- When every step from a state of the closed set `l` lowers `rank`, an
interleaving is no longer than the rank of the state it starts from. -/
theorem run_length_le {σ ω : Type} [DecidableEq σ] (step : Step σ ω) (l : List σ) (rank : σ → Nat)
    (hcl : allNext step (fun _ _ s' _ => l.contains s') l = true)
    (hrk : allNext step (fun _ s s' _ => decide (rank s' < rank s)) l = true) :
    ∀ (sched : List Tid) (s : σ), s ∈ l → ∀ (s' : σ) (out : List ω),
      run step s sched = some (s', out) → rank s' + sched.length ≤ rank s := by
  intro sched
  induction sched with
  | nil =>
    intro s _ s' out h
    simp only [run, Option.some.injEq, Prod.mk.injEq] at h
    rw [← h.1]; simp
  | cons t sched ih =>
    intro s hs s' out h
    obtain ⟨s1, e, out1, hst, hrun, _⟩ := run_cons_eq step s t sched s' out h
    have hmem := allNext_apply step _ l hcl hs hst
    have hlt := allNext_apply step _ l hrk hs hst
    have := ih s1 (by simpa using hmem) s' out1 hrun
    simp only [decide_eq_true_eq] at hlt
    simp only [List.length_cons]
    omega

/-- When every step from a state of the closed set `l` extends `g` by the part
of its output selected by `p`, then along an interleaving `g` grows by the
selected part of the whole output. -/
theorem run_filter {σ ω : Type} [DecidableEq σ] [DecidableEq ω] (step : Step σ ω) (l : List σ)
    (p : ω → Bool) (g : σ → List ω)
    (hcl : allNext step (fun _ _ s' _ => l.contains s') l = true)
    (hg : allNext step (fun _ s s' e => decide (g s' = g s ++ e.filter p)) l = true) :
    ∀ (sched : List Tid) (s : σ), s ∈ l → ∀ (s' : σ) (out : List ω),
      run step s sched = some (s', out) → g s' = g s ++ out.filter p := by
  intro sched
  induction sched with
  | nil =>
    intro s _ s' out h
    simp only [run, Option.some.injEq, Prod.mk.injEq] at h
    rw [← h.1, ← h.2]; simp
  | cons t sched ih =>
    intro s hs s' out h
    obtain ⟨s1, e, out1, hst, hrun, hout⟩ := run_cons_eq step s t sched s' out h
    have hmem := allNext_apply step _ l hcl hs hst
    have hstep := allNext_apply step _ l hg hs hst
    have := ih s1 (by simpa using hmem) s' out1 hrun
    simp only [decide_eq_true_eq] at hstep
    rw [this, hstep, hout, List.filter_append, List.append_assoc]

end Sched

/-! ## channel-synchronization: the receive waits for the send -/

namespace ChannelSynchronization

theorem chsync_closed :
    Sched.allNext step (fun _ _ s' _ => reachSet.contains s') reachSet = true := by
  decide

theorem chsync_rank :
    Sched.allNext step (fun _ s s' _ => decide (rank s' < rank s)) reachSet = true := by
  decide

theorem chsync_out :
    Sched.allNext step
      (fun _ s s' e => decide (workerOut s'.wpc = workerOut s.wpc ++ e.filter (fun _ => true)))
      reachSet = true := by
  decide

theorem chsync_reach (sched : List Tid) (s : State) (out : List Out)
    (h : run sched = some (s, out)) : s ∈ reachSet :=
  Sched.run_mem step reachSet chsync_closed sched init (by decide) s out h

/-- C3. In every interleaving, `main` gets past `<-done` (line 38), and hence
returns, only after the worker has executed `done <- true`, and so after the
worker has written "working..." and "done": a receive on `done` is completed
only after a send; once `main` is past line 38 the one send has happened, the
worker has finished and standard output is "working...done"; and every
interleaving ends, after at most 7 steps, with `main` returned and no fatal
error. -/
theorem main_waits_for_worker (sched : List Tid) (s : State) (out : List Out)
    (h : run sched = some (s, out)) :
    s.doneRecvs ≤ s.doneSends ∧
    (s.mpc = .ret ∨ s.mpc = .exited →
      s.doneSends = 1 ∧ s.doneRecvs = 1 ∧ s.wpc = .returned ∧ out = [.working, .done]) ∧
    (Sched.stuck step s = true → s.mpc = .exited ∧ s.fatal = none) ∧
    sched.length ≤ 7 := by
  have hmem := chsync_reach sched s out h
  have hout := Sched.run_filter step reachSet (fun _ => true) (fun s => workerOut s.wpc)
    chsync_closed chsync_out sched init (by decide) s out h
  have hlen := Sched.run_length_le step reachSet rank chsync_closed chsync_rank
    sched init (by decide) s out h
  have hall : ∀ s ∈ reachSet,
      s.doneRecvs ≤ s.doneSends ∧
      (s.mpc = .ret ∨ s.mpc = .exited →
        s.doneSends = 1 ∧ s.doneRecvs = 1 ∧ s.wpc = .returned ∧
          workerOut s.wpc = [.working, .done]) ∧
      (Sched.stuck step s = true → s.mpc = .exited ∧ s.fatal = none) := by
    decide
  obtain ⟨h1, h2, h3⟩ := hall s hmem
  have hout' : out = workerOut s.wpc := by
    simpa [init, workerOut] using hout.symm
  refine ⟨h1, ?_, h3, ?_⟩
  · intro hm
    obtain ⟨a, b, c, d⟩ := h2 hm
    exact ⟨a, b, c, by rw [hout', d]⟩
  · have hr : rank init = 7 := by decide
    omega

/-- The interleaving in which the worker runs as soon as it is started. -/
theorem main_waits_for_worker_witness :
    final.doneRecvs ≤ final.doneSends ∧
    (final.mpc = .ret ∨ final.mpc = .exited →
      final.doneSends = 1 ∧ final.doneRecvs = 1 ∧ final.wpc = .returned ∧
        [Out.working, Out.done] = [.working, .done]) ∧
    (Sched.stuck step final = true → final.mpc = .exited ∧ final.fatal = none) ∧
    workerFirst.length ≤ 7 :=
  main_waits_for_worker workerFirst final [.working, .done] (by decide)

end ChannelSynchronization

/-! ## closing-channels: delivery, termination, and the producer's protocol -/

namespace ClosingChannels

theorem closing_closed :
    Sched.allNext step (fun _ _ s' _ => reachSet.contains s') reachSet = true := by
  decide!

theorem closing_rank :
    Sched.allNext step (fun _ s s' _ => decide (rank s' < rank s)) reachSet = true := by
  decide!

theorem closing_main_out :
    Sched.allNext step
      (fun _ s s' e => decide (mainOut s' = mainOut s ++ e.filter Line.byMain))
      reachSet = true := by
  decide!

theorem closing_worker_out :
    Sched.allNext step
      (fun _ s s' e => decide (workerOut s' = workerOut s ++ e.filter (fun l => !l.byMain)))
      reachSet = true := by
  decide!

theorem closing_init_mem : init ∈ reachSet := by
  decide

theorem closing_reach (sched : List Tid) (s : State) (out : List Line)
    (h : run sched = some (s, out)) : s ∈ reachSet :=
  Sched.run_mem step reachSet closing_closed sched init closing_init_mem s out h

theorem closing_length (sched : List Tid) (s : State) (out : List Line)
    (h : run sched = some (s, out)) : sched.length ≤ 35 := by
  have hlen := Sched.run_length_le step reachSet rank closing_closed closing_rank
    sched init closing_init_mem s out h
  have hr : rank init = 35 := by decide
  omega

theorem closing_out_main (sched : List Tid) (s : State) (out : List Line)
    (h : run sched = some (s, out)) : out.filter Line.byMain = mainOut s := by
  have := Sched.run_filter step reachSet Line.byMain mainOut
    closing_closed closing_main_out sched init closing_init_mem s out h
  simpa [init, mainOut] using this.symm

theorem closing_out_worker (sched : List Tid) (s : State) (out : List Line)
    (h : run sched = some (s, out)) : out.filter (fun l => !l.byMain) = workerOut s := by
  have := Sched.run_filter step reachSet (fun l => !l.byMain) workerOut
    closing_closed closing_worker_out sched init closing_init_mem s out h
  simpa [init, workerOut] using this.symm

/-- C1. In every interleaving the worker's receives on `jobs` are, at every
moment, an initial part of (1,true), (2,true), (3,true), (0,false); what has
been received with `more = true` followed by what is still buffered is exactly
what `main` has sent (nothing lost, nothing duplicated, order kept); once the
worker has left the receiving phase, and in every state where no goroutine can
move, it has received exactly those four; and every interleaving ends, after at
most 35 steps, with `main` returned and no fatal error. -/
theorem worker_receives_in_order (sched : List Tid) (s : State) (out : List Line)
    (h : run sched = some (s, out)) :
    s.workerOps <+: [.recv 1 true, .recv 2 true, .recv 3 true, .recv 0 false] ∧
    recvVals s.workerOps ++ s.jobs.buf = sentVals s.mainOps ∧
    (phase s ≠ .running →
      s.workerOps = [.recv 1 true, .recv 2 true, .recv 3 true, .recv 0 false]) ∧
    (Sched.stuck step s = true →
      s.mpc = .exited ∧ s.fatal = none ∧
      s.workerOps = [.recv 1 true, .recv 2 true, .recv 3 true, .recv 0 false]) ∧
    sched.length ≤ 35 := by
  have hall : ∀ s ∈ reachSet,
      s.workerOps <+: [.recv 1 true, .recv 2 true, .recv 3 true, .recv 0 false] ∧
      recvVals s.workerOps ++ s.jobs.buf = sentVals s.mainOps ∧
      (phase s ≠ .running →
        s.workerOps = [.recv 1 true, .recv 2 true, .recv 3 true, .recv 0 false]) ∧
      (Sched.stuck step s = true →
        s.mpc = .exited ∧ s.fatal = none ∧
        s.workerOps = [.recv 1 true, .recv 2 true, .recv 3 true, .recv 0 false]) := by
    decide!
  obtain ⟨h1, h2, h3, h4⟩ := hall s (closing_reach sched s out h)
  exact ⟨h1, h2, h3, h4, closing_length sched s out h⟩

/-- The interleaving `mainFirst`: `main` sends everything and closes before the
worker receives anything. -/
theorem worker_receives_in_order_witness :
    final.workerOps <+: [.recv 1 true, .recv 2 true, .recv 3 true, .recv 0 false] ∧
    recvVals final.workerOps ++ final.jobs.buf = sentVals final.mainOps ∧
    (phase final ≠ .running →
      final.workerOps = [.recv 1 true, .recv 2 true, .recv 3 true, .recv 0 false]) ∧
    (Sched.stuck step final = true →
      final.mpc = .exited ∧ final.fatal = none ∧
      final.workerOps = [.recv 1 true, .recv 2 true, .recv 3 true, .recv 0 false]) ∧
    mainFirst.length ≤ 35 :=
  worker_receives_in_order mainFirst final finalOut (by decide!)

/-- C2. In every interleaving, once `main` is past `<-done` (line 59) the
channel `jobs` is closed and its buffer is empty, so the receive of line 68
returns at once with the zero value 0 and `ok = false`; `main` then holds
`ok = false`, and once line 69 has run the lines written by `main` end with
"received more jobs: false"; every interleaving ends, after at most 35 steps,
with `main` returned. -/
theorem final_receive_reports_closed (sched : List Tid) (s : State) (out : List Line)
    (h : run sched = some (s, out)) :
    (s.mpc ∈ [MPc.recvJobs, .printMore, .ret, .exited] →
      s.doneRecvs = 1 ∧ s.jobs.closed = true ∧ s.jobs.buf = []) ∧
    (s.mpc = .recvJobs → GoChan.recv 0 s.jobs = .got 0 false s.jobs) ∧
    (s.mpc ∈ [MPc.printMore, .ret, .exited] →
      s.ok = false ∧ s.mainOps.getLast? = some (.recv 0 false)) ∧
    (s.mpc ∈ [MPc.ret, .exited] →
      out.filter Line.byMain =
        [.sentJob 1, .sentJob 2, .sentJob 3, .sentAll, .receivedMore false] ∧
      (Line.receivedMore false).render = "received more jobs: false") ∧
    (Sched.stuck step s = true → s.mpc = .exited) ∧
    sched.length ≤ 35 := by
  have hall : ∀ s ∈ reachSet,
      (s.mpc ∈ [MPc.recvJobs, .printMore, .ret, .exited] →
        s.doneRecvs = 1 ∧ s.jobs.closed = true ∧ s.jobs.buf = []) ∧
      (s.mpc = .recvJobs → GoChan.recv 0 s.jobs = .got 0 false s.jobs) ∧
      (s.mpc ∈ [MPc.printMore, .ret, .exited] →
        s.ok = false ∧ s.mainOps.getLast? = some (.recv 0 false)) ∧
      (s.mpc ∈ [MPc.ret, .exited] →
        mainOut s = [.sentJob 1, .sentJob 2, .sentJob 3, .sentAll, .receivedMore false]) ∧
      (Sched.stuck step s = true → s.mpc = .exited) := by
    decide!
  obtain ⟨h1, h2, h3, h4, h5⟩ := hall s (closing_reach sched s out h)
  refine ⟨h1, h2, h3, ?_, h5, closing_length sched s out h⟩
  intro hm
  exact ⟨by rw [closing_out_main sched s out h, h4 hm], by decide⟩

/-- The interleaving `mainFirst` up to the return of `main`. -/
theorem final_receive_reports_closed_witness :
    (final.mpc ∈ [MPc.recvJobs, .printMore, .ret, .exited] →
      final.doneRecvs = 1 ∧ final.jobs.closed = true ∧ final.jobs.buf = []) ∧
    (final.mpc = .recvJobs → GoChan.recv 0 final.jobs = .got 0 false final.jobs) ∧
    (final.mpc ∈ [MPc.printMore, .ret, .exited] →
      final.ok = false ∧ final.mainOps.getLast? = some (.recv 0 false)) ∧
    (final.mpc ∈ [MPc.ret, .exited] →
      finalOut.filter Line.byMain =
        [.sentJob 1, .sentJob 2, .sentJob 3, .sentAll, .receivedMore false] ∧
      (Line.receivedMore false).render = "received more jobs: false") ∧
    (Sched.stuck step final = true → final.mpc = .exited) ∧
    mainFirst.length ≤ 35 :=
  final_receive_reports_closed mainFirst final finalOut (by decide!)

/-- C4, as the claim states it, fails in its "and returns": the program ends
when `main` returns, and `main` waits for the send on `done`, not for the
worker's `return`.  Under `mainFirst` the run is over (no goroutine can move,
`main` has returned) with the worker still at its `return` of line 32, so not
every interleaving ends with the worker returned. -/
theorem worker_return_not_executed :
    run mainFirst = some (final, finalOut) ∧
    Sched.stuck step final = true ∧
    final.mpc = .exited ∧
    final.wpc = .ret ∧
    ¬ (∀ (sched : List Tid) (s : State) (out : List Line), run sched = some (s, out) →
        Sched.stuck step s = true → s.wpc = .returned) := by
  have hrun : run mainFirst = some (final, finalOut) := by decide!
  refine ⟨hrun, by decide, rfl, rfl, ?_⟩
  intro hall
  have := hall mainFirst final finalOut hrun (by decide)
  exact absurd this (by decide)

/-- C4, amended. The consumer loop in every interleaving.  A step of the worker
after a receive with `more = true` goes on to print the job and from there back
to the receive; after the receive with `more = false` the worker is in phase
`draining`, prints "received all jobs", sends on `done` and is then at its
`return` (phase `finished`).  No step of any goroutine takes the worker from
`draining` or `finished` back to `running`, adds a receive on `jobs` there, or
adds a send on `done` once `finished`.  As long as `main` has not returned, the
worker at its `return` can execute it, writes nothing and has then returned;
a returned worker takes no further step.  At every moment at most one send on
`done` has happened and "received all jobs" has been written at most once;
every interleaving ends after at most 35 steps, and when no goroutine can move
any more both have happened exactly once and the worker is at its `return` or
has returned. -/
theorem worker_loop_terminal (sched : List Tid) (s : State) (out : List Line)
    (h : run sched = some (s, out)) :
    (∀ (t : Tid) (s' : State) (e : List Line), step t s = some (s', e) →
      (t = .worker → s.wpc = .test → s.more = true → s'.wpc = .printJob) ∧
      (t = .worker → s.wpc = .printJob → s'.wpc = .recvJobs ∧ phase s' = .running) ∧
      (t = .worker → s.wpc = .test → s.more = false → s'.wpc = .printAll) ∧
      (t = .worker → s.wpc = .printAll → s'.wpc = .sendDone ∧ e = [.receivedAll]) ∧
      (s.wpc = .sendDone → s'.wpc ≠ .sendDone →
        s'.wpc = .ret ∧ s'.doneSends = s.doneSends + 1) ∧
      (phase s ≠ .running → phase s' ≠ .running ∧ s'.workerOps = s.workerOps) ∧
      (phase s = .finished →
        phase s' = .finished ∧ s'.doneSends = s.doneSends ∧ Line.receivedAll ∉ e)) ∧
    (JobsOp.recv 0 false ∈ s.workerOps → phase s ≠ .running) ∧
    s.doneSends ≤ 1 ∧
    out.count .receivedAll ≤ 1 ∧
    (Sched.stuck step s = true →
      s.doneSends = 1 ∧ out.count .receivedAll = 1 ∧ phase s = .finished) ∧
    sched.length ≤ 35 ∧
    (s.wpc = .ret → s.mpc ≠ .exited →
      ∃ s', step .worker s = some (s', []) ∧ s'.wpc = .returned ∧
        s'.mpc = s.mpc ∧ s'.workerOps = s.workerOps ∧ s'.doneSends = s.doneSends) ∧
    (s.wpc = .returned → step .worker s = none) ∧
    (Sched.stuck step s = true → s.wpc = .ret ∨ s.wpc = .returned) := by
  have hloop : Sched.allNext step (fun t s s' e => decide (
      (t = .worker → s.wpc = .test → s.more = true → s'.wpc = .printJob) ∧
      (t = .worker → s.wpc = .printJob → s'.wpc = .recvJobs ∧ phase s' = .running) ∧
      (t = .worker → s.wpc = .test → s.more = false → s'.wpc = .printAll) ∧
      (t = .worker → s.wpc = .printAll → s'.wpc = .sendDone ∧ e = [.receivedAll])))
      reachSet = true := by
    decide!
  have hterm : Sched.allNext step (fun _ s s' e => decide (
      (s.wpc = .sendDone → s'.wpc ≠ .sendDone →
        s'.wpc = .ret ∧ s'.doneSends = s.doneSends + 1) ∧
      (phase s ≠ .running → phase s' ≠ .running ∧ s'.workerOps = s.workerOps) ∧
      (phase s = .finished →
        phase s' = .finished ∧ s'.doneSends = s.doneSends ∧ Line.receivedAll ∉ e)))
      reachSet = true := by
    decide!
  have hall : ∀ s ∈ reachSet,
      (JobsOp.recv 0 false ∈ s.workerOps → phase s ≠ .running) ∧
      s.doneSends ≤ 1 ∧
      (workerOut s).count .receivedAll ≤ 1 ∧
      (Sched.stuck step s = true →
        s.doneSends = 1 ∧ (workerOut s).count .receivedAll = 1 ∧ phase s = .finished) := by
    decide!
  have hret : ∀ s ∈ reachSet,
      (s.wpc = .ret → s.mpc ≠ .exited →
        step .worker s = some ({ s with wpc := .returned }, [])) ∧
      (s.wpc = .returned → step .worker s = none) ∧
      (Sched.stuck step s = true → s.wpc = .ret ∨ s.wpc = .returned) := by
    decide!
  have hmem := closing_reach sched s out h
  have hcount : out.count .receivedAll = (workerOut s).count .receivedAll := by
    rw [← closing_out_worker sched s out h]
    exact (List.count_filter (by decide)).symm
  obtain ⟨h1, h2, h3, h4⟩ := hall s hmem
  obtain ⟨r1, r2, r3⟩ := hret s hmem
  refine ⟨?_, h1, h2, by omega, ?_, closing_length sched s out h, ?_, r2, r3⟩
  · intro t s' e hst
    have hl := Sched.allNext_apply step _ reachSet hloop hmem hst
    have ht := Sched.allNext_apply step _ reachSet hterm hmem hst
    simp only [decide_eq_true_eq] at hl ht
    obtain ⟨a, b, c, d⟩ := hl
    exact ⟨a, b, c, d, ht⟩
  · intro hstuck
    obtain ⟨a, b, c⟩ := h4 hstuck
    exact ⟨a, by omega, c⟩
  · intro hw hm
    exact ⟨{ s with wpc := .returned }, r1 hw hm, rfl, rfl, rfl, rfl⟩

/-- The interleaving `untilHandOver`: right after the hand-over on `done` the
worker is at its `return`, `main` has not returned, and the `return` can run. -/
theorem worker_loop_terminal_witness :
    (∀ (t : Tid) (s' : State) (e : List Line), step t afterHandOver = some (s', e) →
      (t = .worker → afterHandOver.wpc = .test → afterHandOver.more = true →
        s'.wpc = .printJob) ∧
      (t = .worker → afterHandOver.wpc = .printJob →
        s'.wpc = .recvJobs ∧ phase s' = .running) ∧
      (t = .worker → afterHandOver.wpc = .test → afterHandOver.more = false →
        s'.wpc = .printAll) ∧
      (t = .worker → afterHandOver.wpc = .printAll →
        s'.wpc = .sendDone ∧ e = [.receivedAll]) ∧
      (afterHandOver.wpc = .sendDone → s'.wpc ≠ .sendDone →
        s'.wpc = .ret ∧ s'.doneSends = afterHandOver.doneSends + 1) ∧
      (phase afterHandOver ≠ .running →
        phase s' ≠ .running ∧ s'.workerOps = afterHandOver.workerOps) ∧
      (phase afterHandOver = .finished →
        phase s' = .finished ∧ s'.doneSends = afterHandOver.doneSends ∧
          Line.receivedAll ∉ e)) ∧
    (JobsOp.recv 0 false ∈ afterHandOver.workerOps → phase afterHandOver ≠ .running) ∧
    afterHandOver.doneSends ≤ 1 ∧
    afterHandOverOut.count .receivedAll ≤ 1 ∧
    (Sched.stuck step afterHandOver = true →
      afterHandOver.doneSends = 1 ∧ afterHandOverOut.count .receivedAll = 1 ∧
        phase afterHandOver = .finished) ∧
    untilHandOver.length ≤ 35 ∧
    (afterHandOver.wpc = .ret → afterHandOver.mpc ≠ .exited →
      ∃ s', step .worker afterHandOver = some (s', []) ∧ s'.wpc = .returned ∧
        s'.mpc = afterHandOver.mpc ∧ s'.workerOps = afterHandOver.workerOps ∧
        s'.doneSends = afterHandOver.doneSends) ∧
    (afterHandOver.wpc = .returned → step .worker afterHandOver = none) ∧
    (Sched.stuck step afterHandOver = true →
      afterHandOver.wpc = .ret ∨ afterHandOver.wpc = .returned) :=
  worker_loop_terminal untilHandOver afterHandOver afterHandOverOut (by decide!)

/-- C5. In every interleaving no fatal error is raised (neither send on a
closed channel nor close of a closed channel); the operations `main` has
completed on `jobs` are at every moment an initial part of send 1, send 2,
send 3, close, receive, so that all sends come before the one close and none
after it; the worker neither sends on `jobs` nor closes it; `jobs` is closed
exactly when `main` has executed `close(jobs)`, and from then on no step adds
a send or a close (either would raise the fatal error on the closed channel);
every interleaving ends after at most 35 steps, and when no goroutine can move
any more `main` has performed exactly those five operations. -/
theorem producer_sends_then_closes (sched : List Tid) (s : State) (out : List Line)
    (h : run sched = some (s, out)) :
    s.fatal = none ∧
    s.mainOps <+: [.send 1, .send 2, .send 3, .close, .recv 0 false] ∧
    s.mainOps.count .close ≤ 1 ∧
    (sentVals s.workerOps = [] ∧ JobsOp.close ∉ s.workerOps) ∧
    (s.jobs.closed = true ↔ JobsOp.close ∈ s.mainOps) ∧
    (∀ (t : Tid) (s' : State) (e : List Line), step t s = some (s', e) →
      s'.fatal = none ∧
      (s.jobs.closed = true →
        s'.jobs.closed = true ∧ sentVals s'.mainOps = sentVals s.mainOps ∧
        s'.mainOps.count .close = s.mainOps.count .close)) ∧
    (Sched.stuck step s = true →
      s.mainOps = [.send 1, .send 2, .send 3, .close, .recv 0 false]) ∧
    (s.jobs.closed = true →
      (∀ v : Int, GoChan.send s.jobs v = .panicClosed) ∧ GoChan.close s.jobs = .panicClosed) ∧
    sched.length ≤ 35 := by
  have hstep : Sched.allNext step (fun _ s s' _ => decide (
      s'.fatal = none ∧
      (s.jobs.closed = true →
        s'.jobs.closed = true ∧ sentVals s'.mainOps = sentVals s.mainOps ∧
        s'.mainOps.count .close = s.mainOps.count .close)))
      reachSet = true := by
    decide!
  have hall : ∀ s ∈ reachSet,
      s.fatal = none ∧
      s.mainOps <+: [.send 1, .send 2, .send 3, .close, .recv 0 false] ∧
      s.mainOps.count .close ≤ 1 ∧
      (sentVals s.workerOps = [] ∧ JobsOp.close ∉ s.workerOps) ∧
      (s.jobs.closed = true ↔ JobsOp.close ∈ s.mainOps) ∧
      (Sched.stuck step s = true →
        s.mainOps = [.send 1, .send 2, .send 3, .close, .recv 0 false]) := by
    decide!
  have hmem := closing_reach sched s out h
  obtain ⟨h1, h2, h3, h4, h5, h6⟩ := hall s hmem
  refine ⟨h1, h2, h3, h4, h5, ?_, h6, ?_, closing_length sched s out h⟩
  · intro t s' e hst
    have hs := Sched.allNext_apply step _ reachSet hstep hmem hst
    simpa only [decide_eq_true_eq] using hs
  · intro hc
    exact ⟨fun v => by simp [GoChan.send, hc], by simp [GoChan.close, hc]⟩

/-- The interleaving `mainFirst` up to the return of `main`. -/
theorem producer_sends_then_closes_witness :
    final.fatal = none ∧
    final.mainOps <+: [.send 1, .send 2, .send 3, .close, .recv 0 false] ∧
    final.mainOps.count .close ≤ 1 ∧
    (sentVals final.workerOps = [] ∧ JobsOp.close ∉ final.workerOps) ∧
    (final.jobs.closed = true ↔ JobsOp.close ∈ final.mainOps) ∧
    (∀ (t : Tid) (s' : State) (e : List Line), step t final = some (s', e) →
      s'.fatal = none ∧
      (final.jobs.closed = true →
        s'.jobs.closed = true ∧ sentVals s'.mainOps = sentVals final.mainOps ∧
        s'.mainOps.count .close = final.mainOps.count .close)) ∧
    (Sched.stuck step final = true →
      final.mainOps = [.send 1, .send 2, .send 3, .close, .recv 0 false]) ∧
    (final.jobs.closed = true →
      (∀ v : Int, GoChan.send final.jobs v = .panicClosed) ∧
      GoChan.close final.jobs = .panicClosed) ∧
    mainFirst.length ≤ 35 :=
  producer_sends_then_closes mainFirst final finalOut (by decide!)

/-- C6, as the claim states it, fails: the `done` channel of closing-channels
is made by `make(chan bool)` and has capacity 0. -/
theorem closing_done_capacity_zero :
    ¬ (1 ≤ ChannelSynchronization.init.done.cap ∧ 1 ≤ ClosingChannels.init.done.cap) := by
  decide

/-- C6, amended. The `done` channel of channel-synchronization is
`make(chan bool, 1)` and has capacity 1 in every state an interleaving reaches;
the `done` channel of closing-channels is `make(chan bool)` and has capacity 0
in every state an interleaving reaches: it never buffers a value, and a send
on it by the worker alone blocks (it completes only in the hand-over to `main`). -/
theorem done_capacities (sched1 sched2 : List Tid)
    (s1 : ChannelSynchronization.State) (out1 : List ChannelSynchronization.Out)
    (s2 : State) (out2 : List Line)
    (h1 : ChannelSynchronization.run sched1 = some (s1, out1))
    (h2 : run sched2 = some (s2, out2)) :
    ChannelSynchronization.init.done = GoChan.make Bool 1 ∧
    init.done = GoChan.make Bool 0 ∧
    s1.done.cap = 1 ∧
    s2.done.cap = 0 ∧ s2.done.buf = [] ∧ GoChan.send s2.done true = .blocked := by
  have hall1 : ∀ s ∈ ChannelSynchronization.reachSet, s.done.cap = 1 := by
    decide
  have hall2 : ∀ s ∈ reachSet,
      s.done.cap = 0 ∧ s.done.buf = [] ∧ GoChan.send s.done true = .blocked := by
    decide!
  exact ⟨rfl, rfl, hall1 s1 (ChannelSynchronization.chsync_reach sched1 s1 out1 h1),
    hall2 s2 (closing_reach sched2 s2 out2 h2)⟩

/-- Both programs run to the end. -/
theorem done_capacities_witness :
    ChannelSynchronization.init.done = GoChan.make Bool 1 ∧
    init.done = GoChan.make Bool 0 ∧
    ChannelSynchronization.final.done.cap = 1 ∧
    final.done.cap = 0 ∧ final.done.buf = [] ∧ GoChan.send final.done true = .blocked :=
  done_capacities ChannelSynchronization.workerFirst mainFirst
    ChannelSynchronization.final [.working, .done] final finalOut (by decide) (by decide!)

end ClosingChannels

/-! ## Closures: every closure counts its own calls -/

namespace Closures

theorem wrapInt_eq_self (x : Int) (hlo : 0 ≤ x) (hhi : x ≤ maxInt) : wrapInt x = x := by
  unfold wrapInt
  unfold maxInt at hhi
  omega

theorem iterate_incr (k : Nat) (hk : (k : Int) ≤ maxInt) :
    (fun x : Int => wrapInt (x + 1))^[k] 0 = (k : Int) := by
  induction k with
  | zero => simp
  | succ n ih =>
    have hn : (n : Int) ≤ maxInt := by push_cast at hk; omega
    rw [Function.iterate_succ_apply', ih hn]
    push_cast at hk ⊢
    exact wrapInt_eq_self _ (by omega) hk

theorem funcs_get (n k : Nat) (f : Closure)
    (h : ((List.range n).map (fun a => ({ addr := a } : Closure)))[k]? = some f) :
    k < n ∧ f = { addr := k } := by
  rw [List.getElem?_map] at h
  by_cases hk : k < n
  · rw [List.getElem?_range hk] at h
    simp only [Option.map_some', Option.some.injEq] at h
    exact ⟨hk, h.symm⟩
  · rw [List.getElem?_eq_none (by simpa using hk)] at h
    simp at h

theorem exec_cell (ops : List Op) :
    ∀ (p q : Prog), p.funcs = (List.range p.heap.length).map (fun a => ({ addr := a } : Closure)) →
      exec p ops = some q →
      q.funcs = (List.range q.heap.length).map (fun a => ({ addr := a } : Closure)) ∧
      ∀ c, c < q.heap.length →
        q.heap[c]? =
          some ((fun x : Int => wrapInt (x + 1))^[ops.count (.call c)] (p.heap[c]?.getD 0)) := by
  induction ops with
  | nil =>
    intro p q hwf hex
    simp only [exec, Option.some.injEq] at hex
    subst hex
    refine ⟨hwf, ?_⟩
    intro c hc
    simp [List.getElem?_eq_getElem hc]
  | cons op ops ih =>
    intro p q hwf hex
    cases op with
    | make =>
      simp only [exec, intSeq] at hex
      have hwf' : (p.funcs ++ [({ addr := p.heap.length } : Closure)]) =
          (List.range (p.heap ++ [0]).length).map (fun a => ({ addr := a } : Closure)) := by
        simp [List.range_succ, hwf]
      obtain ⟨hq, hcell⟩ := ih _ q hwf' hex
      refine ⟨hq, ?_⟩
      intro c hc
      rw [hcell c hc]
      have hget : (p.heap ++ [0])[c]?.getD 0 = p.heap[c]?.getD 0 := by
        by_cases hlt : c < p.heap.length
        · simp [List.getElem?_append_left hlt]
        · have hge : p.heap.length ≤ c := Nat.le_of_not_lt hlt
          rw [List.getElem?_eq_none hge]
          by_cases heq : c = p.heap.length
          · subst heq; simp
          · rw [List.getElem?_eq_none (by simp; omega)]
      simp [hget]
    | call k =>
      simp only [exec] at hex
      cases hf : p.funcs[k]? with
      | none => simp [hf] at hex
      | some f =>
        simp only [hf] at hex
        obtain ⟨hk, hfk⟩ := funcs_get p.heap.length k f (by rw [← hwf]; exact hf)
        subst hfk
        have hget : p.heap[k]? = some p.heap[k] := List.getElem?_eq_getElem hk
        simp only [Closure.call, hget] at hex
        have hwf' : p.funcs =
            (List.range (p.heap.set k (wrapInt (p.heap[k] + 1))).length).map
              (fun a => ({ addr := a } : Closure)) := by
          simpa using hwf
        obtain ⟨hq, hcell⟩ := ih { p with heap := p.heap.set k (wrapInt (p.heap[k] + 1)) } q hwf' hex
        refine ⟨hq, ?_⟩
        intro c hc
        rw [hcell c hc]
        by_cases heq : k = c
        · subst heq
          simp [List.getElem?_set_self hk, hget, Function.iterate_succ_apply]
        · have hne : Op.call k ≠ Op.call c := by
            intro hh; injection hh with hh; exact heq hh
          simp [List.getElem?_set_ne heq, List.count_cons_of_ne hne.symm]

end Closures

namespace Closures

/-- C7. Every function returned by `intSeq` counts only its own calls.  Let a
program call `intSeq` any number of times and call the functions it got back
in any order (`ops`).  Then the next call of the function returned by the
`k`-th call of `intSeq` returns the number of calls made to that function so
far plus one, as long as that stays in the range of `int`, whatever calls were
made to the others; the functions returned by two different calls of `intSeq`
are different (they close over different `i`); and `main` prints 1, 2, 3 for
`nextInt` and then 1 for the fresh `newInts`. -/
theorem intSeq_counts_own_calls (ops : List Op) (p : Prog) (k : Nat)
    (hex : exec start ops = some p) (hk : k < p.funcs.length)
    (hrange : (ops.count (.call k) : Int) + 1 ≤ maxInt) :
    (∃ f h', p.funcs[k]? = some f ∧
      f.call p.heap = some ((ops.count (.call k) : Int) + 1, h')) ∧
    (∀ (i j : Nat) (f g : Closure), p.funcs[i]? = some f → p.funcs[j]? = some g →
      i ≠ j → f ≠ g) ∧
    main = some ["1", "2", "3", "1"] := by
  obtain ⟨hwf, hcell⟩ := exec_cell ops start p (by simp [start]) hex
  have hlen : p.funcs.length = p.heap.length := by rw [hwf]; simp
  refine ⟨?_, ?_, by decide⟩
  · have hc : k < p.heap.length := by omega
    have hfk : p.funcs[k]? = some { addr := k } := by
      rw [hwf, List.getElem?_map, List.getElem?_range hc]; rfl
    have hcellk := hcell k hc
    have hiter := iterate_incr (ops.count (.call k)) (by omega)
    simp only [start, List.getElem?_nil, Option.getD_none] at hcellk
    rw [hiter] at hcellk
    refine ⟨{ addr := k }, p.heap.set k (wrapInt ((ops.count (.call k) : Int) + 1)), hfk, ?_⟩
    simp only [Closure.call, hcellk]
    rw [wrapInt_eq_self _ (by omega) hrange]
  · intro i j f g hf hg hij hfg
    rw [hwf] at hf hg
    obtain ⟨_, hf'⟩ := funcs_get _ i f hf
    obtain ⟨_, hg'⟩ := funcs_get _ j g hg
    rw [hf', hg'] at hfg
    injection hfg with hfg
    exact hij hfg

/-- Two functions called in turn: `f := intSeq()`, `f()`, `g := intSeq()`,
`g()`, `f()`, `g()`; the next call of `f` is its third and returns 3. -/
theorem intSeq_counts_own_calls_witness :
    (∃ f h', ({ heap := [2, 2], funcs := [{ addr := 0 }, { addr := 1 }] } : Prog).funcs[0]? =
        some f ∧
      f.call ({ heap := [2, 2], funcs := [{ addr := 0 }, { addr := 1 }] } : Prog).heap =
        some (((2 : Nat) : Int) + 1, h')) ∧
    (∀ (i j : Nat) (f g : Closure),
      ({ heap := [2, 2], funcs := [{ addr := 0 }, { addr := 1 }] } : Prog).funcs[i]? = some f →
      ({ heap := [2, 2], funcs := [{ addr := 0 }, { addr := 1 }] } : Prog).funcs[j]? = some g →
      i ≠ j → f ≠ g) ∧
    main = some ["1", "2", "3", "1"] :=
  intSeq_counts_own_calls [.make, .call 0, .make, .call 1, .call 0, .call 1]
    { heap := [2, 2], funcs := [{ addr := 0 }, { addr := 1 }] } 0
    (by decide) (by decide) (by decide)

end Closures

namespace CommandLineArguments

/-- C8, as the claim states it, fails: with the three-entry argument vector
`prog a b` the run ends in an index-out-of-range panic at `arg := os.Args[3]`
(line 27), nothing has been printed, and so "not enough args!" is not printed. -/
theorem main_three_args_panics :
    main ["prog", "a", "b"] = { out := [], panic := some (.indexOutOfRange 3 3) } ∧
    ¬ ((main ["prog", "a", "b"]).panic = none ∧
        "not enough args!" ∈ (main ["prog", "a", "b"]).out) := by
  decide

/-- C8, amended. With more than 3 entries `main` does not panic and prints
`os.Args[3]`, the whole vector, the vector without the program name, and
`os.Args[3]` again; with 1 to 3 entries the access `arg := os.Args[3]` of line
27, which comes before the length check, panics with index out of range and
nothing is printed. -/
theorem main_args (osArgs : List String) (hlen : 1 ≤ osArgs.length) :
    (3 < osArgs.length →
      ∃ x, osArgs[3]? = some x ∧
        main osArgs =
          { out := [x, showSlice osArgs, showSlice (osArgs.drop 1), x], panic := none }) ∧
    (osArgs.length ≤ 3 →
      main osArgs = { out := [], panic := some (.indexOutOfRange 3 osArgs.length) }) := by
  constructor
  · intro h3
    have hget : osArgs[3]? = some osArgs[3] := List.getElem?_eq_getElem h3
    refine ⟨osArgs[3], hget, ?_⟩
    simp [main, goSliceFrom, goIndex, hget, hlen, h3]
  · intro h3
    have hget : osArgs[3]? = none := List.getElem?_eq_none h3
    simp [main, goSliceFrom, goIndex, hget, hlen]

/-- Both cases of C8 at concrete argument vectors. -/
theorem main_args_witness :
    ((3 < ["prog", "a", "b", "c"].length →
      ∃ x, ["prog", "a", "b", "c"][3]? = some x ∧
        main ["prog", "a", "b", "c"] =
          { out := [x, showSlice ["prog", "a", "b", "c"],
                    showSlice (["prog", "a", "b", "c"].drop 1), x], panic := none }) ∧
    (["prog", "a", "b", "c"].length ≤ 3 →
      main ["prog", "a", "b", "c"] =
        { out := [], panic := some (.indexOutOfRange 3 ["prog", "a", "b", "c"].length) })) :=
  main_args ["prog", "a", "b", "c"] (by decide)

end CommandLineArguments

namespace CommandLineSubcommands

theorem status_ne_one (e : ParseExit) : e.status ≠ 1 := by
  cases e <;> decide

/-- C9. For every argument vector, and whatever the `flag` package does with
the arguments it is given, `main` prints the "expected ..." message and exits
with status 1 exactly when there are fewer than 2 entries or `os.Args[1]` is
neither "foo" nor "bar" (and it exits with status 1 in no other case).
Otherwise the only `Parse` call is on the flag set named `os.Args[1]`, with
`os.Args[2:]`, and the run is what that call makes it: when `os.Args[1]` is
"foo" (resp. "bar") and `fooCmd.Parse(os.Args[2:])` (resp. `barCmd.Parse`) ends
the process, nothing is printed and the exit status is that of `Parse`; when it
returns, the subcommand line, the parsed flag values and the tail are printed
and `main` returns normally.  The run does not depend on the other flag set,
nor on what the named one would do with any other argument list; and no run
indexes `os.Args` out of range. -/
theorem main_dispatch (pkg : FlagPkg) (osArgs : List String) :
    (((main pkg osArgs).out = [expected] ∧ (main pkg osArgs).exit = some 1) ↔
      (osArgs.length < 2 ∨ (osArgs[1]? ≠ some "foo" ∧ osArgs[1]? ≠ some "bar"))) ∧
    ((main pkg osArgs).exit = some 1 ↔
      (osArgs.length < 2 ∨ (osArgs[1]? ≠ some "foo" ∧ osArgs[1]? ≠ some "bar"))) ∧
    (¬ (osArgs.length < 2 ∨ (osArgs[1]? ≠ some "foo" ∧ osArgs[1]? ≠ some "bar")) →
      ∃ fs : FlagSet, osArgs[1]? = some fs.name ∧
        (main pkg osArgs).parsed = [(fs, osArgs.drop 2)]) ∧
    (main pkg osArgs).panic = none ∧
    (osArgs[1]? = some "foo" →
      (∀ e, pkg.parseFoo (osArgs.drop 2) = .error e →
        main pkg osArgs =
          { out := [], parsed := [(.fooCmd, osArgs.drop 2)], exit := some e.status,
            panic := none }) ∧
      (∀ fooEnable fooName tail, pkg.parseFoo (osArgs.drop 2) = .ok (fooEnable, fooName, tail) →
        main pkg osArgs =
          { out := ["subcommand 'foo'", "  enable: " ++ toString fooEnable,
                    "  name: " ++ fooName, "  tail: " ++ showSlice tail],
            parsed := [(.fooCmd, osArgs.drop 2)], exit := none, panic := none })) ∧
    (osArgs[1]? = some "bar" →
      (∀ e, pkg.parseBar (osArgs.drop 2) = .error e →
        main pkg osArgs =
          { out := [], parsed := [(.barCmd, osArgs.drop 2)], exit := some e.status,
            panic := none }) ∧
      (∀ barLevel tail, pkg.parseBar (osArgs.drop 2) = .ok (barLevel, tail) →
        main pkg osArgs =
          { out := ["subcommand 'bar'", "  level: " ++ toString barLevel,
                    "  tail: " ++ showSlice tail],
            parsed := [(.barCmd, osArgs.drop 2)], exit := none, panic := none })) ∧
    (∀ pkg' : FlagPkg,
      (osArgs[1]? = some "foo" → pkg'.parseFoo (osArgs.drop 2) = pkg.parseFoo (osArgs.drop 2)) →
      (osArgs[1]? = some "bar" → pkg'.parseBar (osArgs.drop 2) = pkg.parseBar (osArgs.drop 2)) →
      main pkg' osArgs = main pkg osArgs) := by
  by_cases hlen : osArgs.length < 2
  · have hnone : osArgs[1]? = none := List.getElem?_eq_none (by omega)
    simp [main, hlen, hnone]
  · have h2 : 2 ≤ osArgs.length := Nat.le_of_not_lt hlen
    have hget : osArgs[1]? = some osArgs[1] := List.getElem?_eq_getElem (by omega)
    by_cases hfoo : osArgs[1] = "foo"
    · have hnb : ¬ ("foo" = "bar") := by decide
      refine ⟨?_, ?_, ?_, ?_, ?_, ?_, ?_⟩
      · cases hp : pkg.parseFoo (osArgs.drop 2) with
        | error e =>
          have := status_ne_one e
          simp [main, hlen, goIndex, goSliceFrom, hget, hfoo, h2, hp, this]
        | ok v =>
          obtain ⟨en, nm, tl⟩ := v
          simp [main, hlen, goIndex, goSliceFrom, hget, hfoo, h2, hp]
      · cases hp : pkg.parseFoo (osArgs.drop 2) with
        | error e =>
          have := status_ne_one e
          simp [main, hlen, goIndex, goSliceFrom, hget, hfoo, h2, hp, this]
        | ok v =>
          obtain ⟨en, nm, tl⟩ := v
          simp [main, hlen, goIndex, goSliceFrom, hget, hfoo, h2, hp]
      · intro _
        refine ⟨.fooCmd, by simp [hget, hfoo, FlagSet.name], ?_⟩
        cases hp : pkg.parseFoo (osArgs.drop 2) with
        | error e => simp [main, hlen, goIndex, goSliceFrom, hget, hfoo, h2, hp]
        | ok v =>
          obtain ⟨en, nm, tl⟩ := v
          simp [main, hlen, goIndex, goSliceFrom, hget, hfoo, h2, hp]
      · cases hp : pkg.parseFoo (osArgs.drop 2) with
        | error e => simp [main, hlen, goIndex, goSliceFrom, hget, hfoo, h2, hp]
        | ok v =>
          obtain ⟨en, nm, tl⟩ := v
          simp [main, hlen, goIndex, goSliceFrom, hget, hfoo, h2, hp]
      · intro _
        constructor
        · intro e hp
          simp [main, hlen, goIndex, goSliceFrom, hget, hfoo, h2, hp]
        · intro en nm tl hp
          simp [main, hlen, goIndex, goSliceFrom, hget, hfoo, h2, hp]
      · intro hb
        rw [hget, hfoo] at hb
        exact absurd (Option.some.inj hb) hnb
      · intro pkg' hf _
        have hf' := hf (by rw [hget, hfoo])
        simp [main, hlen, goIndex, goSliceFrom, hget, hfoo, h2, hf']
    · by_cases hbar : osArgs[1] = "bar"
      · have hnb : ¬ ("bar" = "foo") := by decide
        refine ⟨?_, ?_, ?_, ?_, ?_, ?_, ?_⟩
        · cases hp : pkg.parseBar (osArgs.drop 2) with
          | error e =>
            have := status_ne_one e
            simp [main, hlen, goIndex, goSliceFrom, hget, hbar, h2, hp, this]
          | ok v =>
            obtain ⟨lv, tl⟩ := v
            simp [main, hlen, goIndex, goSliceFrom, hget, hbar, h2, hp]
        · cases hp : pkg.parseBar (osArgs.drop 2) with
          | error e =>
            have := status_ne_one e
            simp [main, hlen, goIndex, goSliceFrom, hget, hbar, h2, hp, this]
          | ok v =>
            obtain ⟨lv, tl⟩ := v
            simp [main, hlen, goIndex, goSliceFrom, hget, hbar, h2, hp]
        · intro _
          refine ⟨.barCmd, by simp [hget, hbar, FlagSet.name], ?_⟩
          cases hp : pkg.parseBar (osArgs.drop 2) with
          | error e => simp [main, hlen, goIndex, goSliceFrom, hget, hbar, h2, hp]
          | ok v =>
            obtain ⟨lv, tl⟩ := v
            simp [main, hlen, goIndex, goSliceFrom, hget, hbar, h2, hp]
        · cases hp : pkg.parseBar (osArgs.drop 2) with
          | error e => simp [main, hlen, goIndex, goSliceFrom, hget, hbar, h2, hp]
          | ok v =>
            obtain ⟨lv, tl⟩ := v
            simp [main, hlen, goIndex, goSliceFrom, hget, hbar, h2, hp]
        · intro hb
          rw [hget, hbar] at hb
          exact absurd (Option.some.inj hb) hnb
        · intro _
          constructor
          · intro e hp
            simp [main, hlen, goIndex, goSliceFrom, hget, hbar, h2, hp]
          · intro lv tl hp
            simp [main, hlen, goIndex, goSliceFrom, hget, hbar, h2, hp]
        · intro pkg' _ hb
          have hb' := hb (by rw [hget, hbar])
          simp [main, hlen, goIndex, goSliceFrom, hget, hbar, h2, hb']
      · simp [main, hlen, goIndex, hget, hfoo, hbar]

end CommandLineSubcommands
